import Mathlib

/-!
Verification of the upgrade-cli self-update pipeline against its
natural-language specification.

The Go sources (`upgrade.go`, `release/asset/download.go`, the checksum
package) are shallowly embedded below.  Strings are Lean `String`s; the
Go standard-library string and path helpers used by the code
(`strings.HasPrefix/HasSuffix/TrimSuffix/ToLower/TrimSpace/Fields`,
`filepath.Ext`, `filepath.Base`) are re-implemented structurally over
character lists, following the Go implementations (ASCII lower-casing and
ASCII whitespace suffice for the data handled here).  Effectful
collaborators (HTTP transport, the release client, the random component
of `os.CreateTemp` names, the gzip/tar stream decoders, the filesystem)
are injected as explicit parameters; `os.CreateTemp`'s pattern handling
(rejecting patterns that contain a path separator, appending the random
string, or substituting it for the last `*`) and `zip.NewReader`'s
behaviour at the hard-coded declared size of 0 (it fails before reading
any entry) are modelled faithfully, since the extraction code depends on
them.
-/

/-- Go `strings.HasPrefix s pre`. -/
def goStartsWith (s p : String) : Bool := p.data.isPrefixOf s.data

/-- Go `strings.HasSuffix s suf`. -/
def goHasSuffix (s suf : String) : Bool := suf.data.isSuffixOf s.data

/-- Go `strings.TrimSuffix s suf`: remove one trailing occurrence of `suf`, if present. -/
def goTrimSuffix (s suf : String) : String :=
  if goHasSuffix s suf then String.mk (s.data.take (s.data.length - suf.data.length)) else s

/-- Go `strings.ToLower` (ASCII). -/
def goToLower (s : String) : String := String.mk (s.data.map Char.toLower)

/-- Go `strings.TrimSpace` (leading and trailing whitespace removed). -/
def goTrimSpace (s : String) : String :=
  String.mk (((s.data.dropWhile Char.isWhitespace).reverse.dropWhile Char.isWhitespace).reverse)

/-- Helper for Go `strings.Fields`: accumulate the current word (reversed) while
splitting on whitespace runs. -/
def goFieldsGo : List Char → List Char → List String
  | [], w => if w = [] then [] else [String.mk w.reverse]
  | c :: rest, w =>
    if c.isWhitespace then
      if w = [] then goFieldsGo rest []
      else String.mk w.reverse :: goFieldsGo rest []
    else goFieldsGo rest (c :: w)

/-- Go `strings.Fields`: split around runs of whitespace, no empty fields. -/
def goFields (s : String) : List String := goFieldsGo s.data []

/-- Helper for Go `filepath.Ext`: scan the path from its end; a dot starts the
extension, a path separator (or exhaustion) means there is none.  `acc` holds
the characters already passed, in original order. -/
def goFilepathExtGo : List Char → List Char → String
  | [], _ => ""
  | c :: rest, acc =>
    if c = '/' then ""
    else if c = '.' then String.mk ('.' :: acc)
    else goFilepathExtGo rest (c :: acc)

/-- Go `filepath.Ext`: the suffix beginning at the final dot in the final
slash-separated element of the path; empty if there is no dot. -/
def goFilepathExt (p : String) : String := goFilepathExtGo p.data.reverse []

/-- Go `filepath.Base` (unix): last element of the path after removing
trailing slashes; `"."` for the empty path, `"/"` if only separators remain. -/
def goFilepathBase (p : String) : String :=
  if p.isEmpty then "."
  else
    let cs := p.data.reverse.dropWhile (fun c => c = '/')
    if cs = [] then "/"
    else String.mk ((cs.takeWhile (fun c => c ≠ '/')).reverse)

/-- `os.CreateTemp` name generation: the random string replaces the last `*`
of the pattern, or is appended when the pattern has no `*`. -/
def nameFromPattern (pattern rand : String) : String :=
  let rev := pattern.data.reverse
  let suf := rev.takeWhile (fun c => c != '*')
  let rest := rev.dropWhile (fun c => c != '*')
  match rest with
  | '*' :: before => String.mk (before.reverse ++ rand.data ++ suf.reverse)
  | _ => pattern ++ rand

/-- `os.CreateTemp dir pattern` with `dir = ""` (so the system temp directory,
`/tmp` on unix): a pattern containing a path separator is rejected before any
file is created; otherwise the new file's path is returned.  The random
component is injected as `rand`. -/
def createTemp (pattern rand : String) : Except String String :=
  if '/' ∈ pattern.data then Except.error "pattern contains path separator"
  else Except.ok ("/tmp/" ++ nameFromPattern pattern rand)

/-! ## Archive extraction (`upgrade.go`) -/

/-- A tar header as `unTar` inspects it: entry name and type flag. -/
structure TarEntry where
  name : String
  typeflag : Char
deriving DecidableEq, Repr

/-- Go `tar.TypeReg`. -/
def tarTypeReg : Char := '0'

/-- A zip central-directory entry as `unZip` inspects it: only the name is
consulted by the code; `isDir` records whether the entry is a directory
(available to the code via `FileInfo`, but never read by it). -/
structure ZipEntry where
  name : String
  isDir : Bool
deriving DecidableEq, Repr

/-- The scanning loop of `unTar`, after the temp file `out` has been created:
skip non-regular entries, skip entries whose base name lacks the target
prefix, and return `out` for the first match (the copy and chmod into the
already-open temp file are modelled as succeeding). -/
def unTarLoop (p out : String) : List TarEntry → Except String String
  | [] => Except.error "file not found in archive"
  | hdr :: rest =>
    if hdr.typeflag != tarTypeReg then unTarLoop p out rest
    else if !goStartsWith (goFilepathBase hdr.name) p then unTarLoop p out rest
    else Except.ok out

/-- `unTar` from `upgrade.go`: create the output temp file with pattern
`"/tmp/" + prefix + "-*"`, then scan the tar entries. -/
def unTar (p : String) (entries : List TarEntry) : Except String String :=
  match createTemp ("/tmp/" ++ p ++ "-*") "" with
  | Except.error e => Except.error ("failed to create temp file: " ++ e)
  | Except.ok out => unTarLoop p out entries

/-- `unTarGz` from `upgrade.go`: wrap the stream in a gzip reader (success
injected as `gzipOk`), then `unTar`. -/
def unTarGz (p : String) (gzipOk : Bool) (entries : List TarEntry) : Except String String :=
  if !gzipOk then Except.error "failed to create gzip reader: invalid gzip"
  else unTar p entries

/-- The scanning loop of `unZip`: the code checks only that the entry's base
name starts with the target prefix (no check of the entry type), opens it,
and creates the output temp file with pattern `"/tmp/" + prefix + "-*"`.
(`unZip` itself never reaches this loop, see `zipNewReader`.) -/
def unZipLoop (p : String) : List ZipEntry → Except String String
  | [] => Except.error ("no file found with prefix: " ++ p)
  | f :: rest =>
    if !goStartsWith (goFilepathBase f.name) p then unZipLoop p rest
    else
      match createTemp ("/tmp/" ++ p ++ "-*") "" with
      | Except.error e => Except.error ("failed to create temp file: " ++ e)
      | Except.ok out => Except.ok out

/-- Go `zip.NewReader r size`: the end-of-central-directory record is read
from the final bytes of the reader, so with a declared size of 0 no
signature can be found and the call fails with `ErrFormat`
("zip: not a valid zip file") before any entry is read.  On success the
archive's entry list is yielded (abstracting the central-directory parse). -/
def zipNewReader (entries : List ZipEntry) (size : Nat) : Except String (List ZipEntry) :=
  if size = 0 then Except.error "zip: not a valid zip file"
  else Except.ok entries

/-- `unZip` from `upgrade.go`: it calls `zip.NewReader(r, 0)` with the size
hard-coded to 0, which always fails, so the scan loop is never reached. -/
def unZip (p : String) (entries : List ZipEntry) : Except String String :=
  match zipNewReader entries 0 with
  | Except.error e => Except.error ("failed to create zip reader: " ++ e)
  | Except.ok es => unZipLoop p es

/-- `unGz` from `upgrade.go`: gzip reader, then a temp file with pattern
`"/tmp/" + prefix + "-*"`, then the copy and chmod (modelled as succeeding). -/
def unGz (p : String) (gzipOk : Bool) : Except String String :=
  if !gzipOk then Except.error "failed to create gzip reader: invalid gzip"
  else
    match createTemp ("/tmp/" ++ p ++ "-*") "" with
    | Except.error e => Except.error ("failed to create temp file: " ++ e)
    | Except.ok out => Except.ok out

/-- What `os.Open` and the stream decoders yield for the downloaded artifact. -/
structure ArchiveData where
  openOk : Bool
  gzipOk : Bool
  tarEntries : List TarEntry
  zipEntries : List ZipEntry
deriving Repr

/-- The branch of `tryUnArchive`'s switch statement selected for a path. -/
inductive ArchiveCase
  | tarGzCase
  | zipCase
  | tarCase
  | gzCase
  | noExtCase
  | unsupportedCase
deriving DecidableEq, Repr

/-- The dispatch of `tryUnArchive`: `switch filepath.Ext(arPath)` with cases
`".tar.gz"`, `".zip"`, `".tar"`, `".gz"`, `""` and a default. -/
def tryUnArchiveCase (arPath : String) : ArchiveCase :=
  match goFilepathExt arPath with
  | ".tar.gz" => ArchiveCase.tarGzCase
  | ".zip" => ArchiveCase.zipCase
  | ".tar" => ArchiveCase.tarCase
  | ".gz" => ArchiveCase.gzCase
  | "" => ArchiveCase.noExtCase
  | _ => ArchiveCase.unsupportedCase

/-- `tryUnArchive` from `upgrade.go`: open the artifact, then dispatch on
`filepath.Ext` of its path. -/
def tryUnArchive (p arPath : String) (d : ArchiveData) : Except String String :=
  if !d.openOk then Except.error "failed to open file"
  else
    match goFilepathExt arPath with
    | ".tar.gz" => unTarGz p d.gzipOk d.tarEntries
    | ".zip" => unZip p d.zipEntries
    | ".tar" => unTar p d.tarEntries
    | ".gz" => unGz p d.gzipOk
    | "" => Except.ok arPath
    | ext => Except.error ("unsupported file type: " ++ ext)

/-! ## Asset selection and download (`release/asset/download.go`) -/

/-- A release asset; the code inspects only the download URL. -/
structure Asset where
  browserDownloadURL : String
deriving DecidableEq, Repr

/-- The ordered archive-suffix candidates from `DownloadAsset`. -/
def arSuffixes : List String := [".tar.gz", ".tar", ".zip", ".gz"]

/-- The suffix-stripping loop of `DownloadAsset`: try each candidate in
order; the first whose removal changes the string wins and the loop breaks. -/
def stripLoop (u : String) : List String → String × String
  | [] => (u, "")
  | s :: rest =>
    let t := goTrimSuffix u s
    if t != u then (t, s) else stripLoop u rest

/-- Strip at most one trailing archive suffix, reporting the stripped string
and the detected suffix (empty when none matched). -/
def stripArSuffix (u : String) : String × String := stripLoop u arSuffixes

/-- `asset.Info`. -/
structure AssetInfo where
  checksum : String
  downloadedBinaryFilePath : String
  platformSuffix : String
  arSuffix : String
deriving DecidableEq, Repr

/-- Injected transport behaviour for one asset download: whether the GET and
the streamed copy succeed, the hex digest the hasher computes, and the random
component `os.CreateTemp` appends to the temp-file name. -/
structure DownloadEnv where
  httpOk : Bool
  digest : String
  rand : String
deriving Repr

/-- `downloader.downloadAsset`: GET the URL, create a temp file whose pattern
is the executable's base name, stream the body into it while hashing, and
mark it executable.  The resulting `Info` carries the digest and the
temp-file path; `PlatformSuffix` and `ArSuffix` are filled by the caller. -/
def downloadAssetHttp (executable : String) (env : DownloadEnv) : Except String AssetInfo :=
  if !env.httpOk then Except.error "failed to download asset"
  else
    match createTemp executable env.rand with
    | Except.error e => Except.error e
    | Except.ok path =>
      Except.ok { checksum := env.digest, downloadedBinaryFilePath := path,
                  platformSuffix := "", arSuffix := "" }

/-- The matching predicate of `DownloadAsset`: the lower-cased URL, with at
most one archive suffix stripped, ends with the platform suffix. -/
def matchesPlatform (suffix : String) (a : Asset) : Bool :=
  goHasSuffix (stripArSuffix (goToLower a.browserDownloadURL)).1 suffix

/-- The asset loop of `downloader.DownloadAsset`: download the first matching
asset, record the platform suffix and detected archive suffix, or fail naming
the requested OS and architecture. -/
def downloadAssetLoop (osS archS executable : String) (env : DownloadEnv) :
    List Asset → Except String AssetInfo
  | [] => Except.error ("no asset found: os:" ++ osS ++ " arch:" ++ archS)
  | a :: rest =>
    let u := goToLower a.browserDownloadURL
    let pr := stripArSuffix u
    if goHasSuffix pr.1 (osS ++ "_" ++ archS) then
      match downloadAssetHttp executable env with
      | Except.error e => Except.error e
      | Except.ok info =>
        Except.ok { info with platformSuffix := osS ++ "_" ++ archS, arSuffix := pr.2 }
    else downloadAssetLoop osS archS executable env rest

/-- `downloader.DownloadAsset`. -/
def DownloadAsset (osS archS executable : String) (env : DownloadEnv) (assets : List Asset) :
    Except String AssetInfo :=
  downloadAssetLoop osS archS executable env assets

/-! ## Checksum manifest (checksum package) -/

/-- Manifest-key derivation from `downloadCheckSum`: lower-case the filename,
then apply `strings.TrimSuffix` for each of `.tar.gz`, `.tar`, `.zip`, `.gz`
in sequence (a loop without `break`, so several suffixes can be removed). -/
def manifestStripSeq (k : String) : String :=
  arSuffixes.foldl (fun acc s => goTrimSuffix acc s) k

/-- The normalized manifest key for one filename. -/
def manifestKey (filename : String) : String := manifestStripSeq (goToLower filename)

/-- The normalization `DownloadAsset` applies to an asset URL before the
platform-suffix comparison: lower-case, then strip at most one archive suffix. -/
def assetNormalize (u : String) : String := (stripArSuffix (goToLower u)).1

/-- Error text of the malformed-manifest failure (`ErrInvalidChecksumFile`
wrapped with the malformed message). -/
def malformedMsg : String := "invalid checksum file: checksum file is malformed"

/-- Error text of the empty-manifest failure (`ErrInvalidChecksumFile`
wrapped with the empty message). -/
def emptyMsg : String := "invalid checksum file: checksum file is empty"

/-- The line loop of `downloadCheckSum`.  The Go map is modelled as an
association list where the most recent binding is listed first, so lookup
returns the latest write.  A line whose trimmed content does not split into
exactly two fields aborts the whole parse; after the loop an empty map is
rejected. -/
def downloadCheckSumLoop : List String → List (String × String) →
    Except String (List (String × String))
  | [], acc => if acc.isEmpty then Except.error emptyMsg else Except.ok acc
  | line :: rest, acc =>
    match goFields (goTrimSpace line) with
    | [p0, p1] => downloadCheckSumLoop rest ((manifestKey p1, goToLower p0) :: acc)
    | _ => Except.error malformedMsg

/-- `downloadCheckSum`, applied to the fetched manifest body given as its
list of lines (`bufio.Scanner` yields lines without terminators; an empty
body yields no lines). -/
def downloadCheckSum (lines : List String) : Except String (List (String × String)) :=
  downloadCheckSumLoop lines []

/-- Go map lookup over the association-list model. -/
def checksumLookup (m : List (String × String)) (k : String) : Option String :=
  (m.find? (fun kv => kv.1 == k)).map (fun kv => kv.2)

/-- `validator.IsCheckSumValid`: build the key `<binary>_<os>_<arch>`, look
it up, return `false` when absent, otherwise compare exactly. -/
def IsCheckSumValid (binary : String) (checksums : List (String × String))
    (osS archS digest : String) : Bool :=
  let key := binary ++ "_" ++ osS ++ "_" ++ archS
  match checksumLookup checksums key with
  | none => false
  | some expected => expected == digest

/-- `checksumDownloader.Download`: find the first asset whose URL ends with
the configured suffix (default `"checksums.txt"`), fetch it (transport
outcome injected as `fetch`, the body as its lines) and parse it; fail with
the no-checksum-asset error when no asset matches. -/
def checksumDownloadLoop (assetSuffix : String) (fetch : Except String (List String)) :
    List Asset → Except String (List (String × String))
  | [] => Except.error "no checksum asset found"
  | a :: rest =>
    if goHasSuffix a.browserDownloadURL assetSuffix then
      match fetch with
      | Except.error e => Except.error e
      | Except.ok lines => downloadCheckSum lines
    else checksumDownloadLoop assetSuffix fetch rest

/-! ## Binary replacement and orchestrator (`upgrade.go`) -/

/-- The filesystem as a map from paths to file contents. -/
def FS : Type := String → Option String

/-- `os.Rename src dst`: on success the content moves atomically from `src`
to `dst`; external failures (permissions, cross-device links, a missing
source) are injected as `renameOk = false`, and a failed rename changes
nothing. -/
def osRename (renameOk : Bool) (fs : FS) (src dst : String) : Option FS :=
  if renameOk then
    some (fun q => if q = dst then fs src else if q = src then none else fs q)
  else none

/-- `replaceBinary` from `upgrade.go`: a single `os.Rename` of the temp file
onto the current binary, wrapping a failure; no copy fallback exists. -/
def replaceBinary (renameOk : Bool) (fs : FS) (tmpFilePath currentBinaryPath : String) :
    Except String Unit × FS :=
  match osRename renameOk fs tmpFilePath currentBinaryPath with
  | none => (Except.error "failed to replace binary: rename failed", fs)
  | some fs2 => (Except.ok (), fs2)

/-- A release descriptor as the release client returns it. -/
structure Release where
  tagName : String
  assets : List Asset
deriving Repr

/-- The injected collaborators of one upgrade attempt.  `parse` is the
external semantic-version parser (comparison is the total order of `V`);
`release` the outcome of `GetLatestRelease`; `checksumFetch` the transport
outcome and body lines of the manifest download; `fs` the filesystem. -/
structure UpgradeEnv (V : Type) where
  parse : String → Option V
  release : Except String Release
  download : DownloadEnv
  checksumFetch : Except String (List String)
  archive : ArchiveData
  renameOk : Bool
  fs : FS

/-- Observable side effects of one `Upgrade` call: whether the asset
download step was entered, whether the executable was replaced, and which
path was handed to `replaceBinary` (`none` when that step was not reached). -/
structure Effects where
  assetDownloadAttempted : Bool
  execReplaced : Bool
  binarySource : Option String
deriving DecidableEq, Repr

/-- The effects of an upgrade that stopped before the download step. -/
def noEffects : Effects :=
  { assetDownloadAttempted := false, execReplaced := false, binarySource := none }

/-- `upgrader.IsNewVersionAvailable`: parse both versions (failing with a
wrapped parse error) and report whether the latest is strictly greater. -/
def IsNewVersionAvailable {V : Type} [LinearOrder V] (env : UpgradeEnv V)
    (currentVersion : String) : Except String Bool :=
  match env.parse currentVersion with
  | none => Except.error ("failed to parse current version: " ++ currentVersion)
  | some curr =>
    match env.release with
    | Except.error e => Except.error e
    | Except.ok rel =>
      match env.parse rel.tagName with
      | none => Except.error ("failed to parse latest version: " ++ rel.tagName)
      | some latest => Except.ok (decide (curr < latest))

/-- The tail of `upgrader.Upgrade` after a successful asset download:
download and parse the checksum manifest, validate, un-archive using the
executable's base name as target prefix, and replace the binary. -/
def upgradeFromInfo {V : Type} (osS archS executablePath : String) (env : UpgradeEnv V)
    (assets : List Asset) (info : AssetInfo) : Except String Unit × Effects × FS :=
  let eff : Effects :=
    { assetDownloadAttempted := true, execReplaced := false, binarySource := none }
  match checksumDownloadLoop "checksums.txt" env.checksumFetch assets with
  | Except.error e => (Except.error e, eff, env.fs)
  | Except.ok checksumInfo =>
    let executableName := goFilepathBase executablePath
    if !IsCheckSumValid executableName checksumInfo osS archS info.checksum then
      (Except.error "invalid checksum", eff, env.fs)
    else
      match tryUnArchive executableName info.downloadedBinaryFilePath env.archive with
      | Except.error e => (Except.error ("failed to unarchive: " ++ e), eff, env.fs)
      | Except.ok tempFile =>
        let rb := replaceBinary env.renameOk env.fs tempFile executablePath
        match rb.1 with
        | Except.error e =>
          (Except.error ("failed to replace binary: " ++ e),
           { eff with binarySource := some tempFile }, rb.2)
        | Except.ok _ =>
          (Except.ok (),
           { eff with execReplaced := true, binarySource := some tempFile }, rb.2)

/-- `upgrader.Upgrade`: parse both versions, short-circuit success when the
latest is not newer, otherwise run the download-verify-extract-replace
pipeline.  Besides the Go result, the model returns the observable effects
and the final filesystem. -/
def Upgrade {V : Type} [LinearOrder V] (osS archS executablePath : String)
    (env : UpgradeEnv V) (currentVersion : String) : Except String Unit × Effects × FS :=
  match env.parse currentVersion with
  | none => (Except.error ("invalid current version: " ++ currentVersion), noEffects, env.fs)
  | some curr =>
    match env.release with
    | Except.error e => (Except.error e, noEffects, env.fs)
    | Except.ok rel =>
      match env.parse rel.tagName with
      | none => (Except.error ("invalid latest version: " ++ rel.tagName), noEffects, env.fs)
      | some latest =>
        if latest ≤ curr then (Except.ok (), noEffects, env.fs)
        else
          match DownloadAsset osS archS (goFilepathBase executablePath) env.download rel.assets with
          | Except.error e =>
            (Except.error e, { noEffects with assetDownloadAttempted := true }, env.fs)
          | Except.ok info => upgradeFromInfo osS archS executablePath env rel.assets info

/-- `Except` success as a Boolean observation. -/
def exceptOk {ε α : Type} : Except ε α → Bool
  | Except.ok _ => true
  | Except.error _ => false

instance {e a : Type} [DecidableEq e] [DecidableEq a] : DecidableEq (Except e a) := fun x y =>
  match x, y with
  | Except.ok u, Except.ok v =>
    if h : u = v then isTrue (by rw [h]) else isFalse (fun he => h (Except.ok.inj he))
  | Except.error u, Except.error v =>
    if h : u = v then isTrue (by rw [h]) else isFalse (fun he => h (Except.error.inj he))
  | Except.ok _, Except.error _ => isFalse (fun he => Except.noConfusion he)
  | Except.error _, Except.ok _ => isFalse (fun he => Except.noConfusion he)

/-- one manifest line is bad when its trimmed content does not split into
exactly two whitespace-separated fields. -/
def badLine (line : String) : Bool := (goFields (goTrimSpace line)).length != 2

/-- The entries accumulated by the manifest loop (bad lines contribute
nothing; they only matter through the early abort captured separately). -/
def checksumFold (acc : List (String × String)) : List String → List (String × String)
  | [] => acc
  | line :: rest =>
    match goFields (goTrimSpace line) with
    | [p0, p1] => checksumFold ((manifestKey p1, goToLower p0) :: acc) rest
    | _ => checksumFold acc rest

/-- Assets of the concrete upgrade scenario used in closed evaluations: a
platform archive asset and a checksum manifest asset. -/
def assetsC2 : List Asset :=
  [{ browserDownloadURL := "https://g.h/app_linux_amd64.tar.gz" },
   { browserDownloadURL := "https://g.h/checksums.txt" }]

/-- Release of the concrete upgrade scenario. -/
def relC2 : Release := { tagName := "v2", assets := assetsC2 }

/-- A fully concrete environment in which every pipeline step succeeds and
the matched asset URL ends in `.tar.gz`. -/
def envC2 : UpgradeEnv Nat where
  parse := fun s => if s = "v2" then some 2 else if s = "v1" then some 1 else none
  release := Except.ok relC2
  download := { httpOk := true, digest := "abc123", rand := "12345" }
  checksumFetch := Except.ok ["abc123  app_linux_amd64.tar.gz"]
  archive := { openOk := true, gzipOk := true, tarEntries := [], zipEntries := [] }
  renameOk := true
  fs := fun _ => none

/-- Release of the no-op upgrade scenario: the latest tag equals the
current version. -/
def relC7 : Release := { tagName := "v1", assets := [] }

/-- A concrete environment for the no-op upgrade scenario. -/
def envC7 : UpgradeEnv Nat where
  parse := fun s => if s = "v2" then some 2 else if s = "v1" then some 1 else none
  release := Except.ok relC7
  download := { httpOk := true, digest := "d", rand := "1" }
  checksumFetch := Except.error "unused"
  archive := { openOk := true, gzipOk := true, tarEntries := [], zipEntries := [] }
  renameOk := true
  fs := fun _ => none

/-! ## General lemmas about the embedded operations -/

theorem dataAppend (s t : String) : (s ++ t).data = s.data ++ t.data := rfl

theorem goTrimSuffix_of_not {s suf : String} (h : goHasSuffix s suf = false) :
    goTrimSuffix s suf = s := by
  simp [goTrimSuffix, h]

theorem goTrimSuffix_length {s suf : String} (h : goHasSuffix s suf = true) :
    (goTrimSuffix s suf).data.length = s.data.length - suf.data.length := by
  have hs : suf.data <:+ s.data := List.isSuffixOf_iff_suffix.mp h
  have hle := hs.length_le
  simp [goTrimSuffix, h, List.length_take, Nat.min_def, Nat.sub_le]

theorem goTrimSuffix_ne {s suf : String} (h : goHasSuffix s suf = true)
    (hpos : 0 < suf.data.length) : goTrimSuffix s suf ≠ s := by
  intro he
  have hs : suf.data <:+ s.data := List.isSuffixOf_iff_suffix.mp h
  have hle := hs.length_le
  have h1 := goTrimSuffix_length h
  rw [he] at h1
  omega

theorem stripLoop_cons_pos {u s : String} (rest : List String)
    (h : goHasSuffix u s = true) (hpos : 0 < s.data.length) :
    stripLoop u (s :: rest) = (goTrimSuffix u s, s) := by
  have hne : (goTrimSuffix u s != u) = true := bne_iff_ne.mpr (goTrimSuffix_ne h hpos)
  simp [stripLoop, hne]

theorem stripLoop_cons_neg {u s : String} (rest : List String)
    (h : goHasSuffix u s = false) :
    stripLoop u (s :: rest) = stripLoop u rest := by
  simp [stripLoop, goTrimSuffix_of_not h]

theorem slashMemPattern (p : String) : '/' ∈ ("/tmp/" ++ p ++ "-*").data := by
  rw [dataAppend, dataAppend]
  exact List.mem_append_left _ (List.mem_append_left _ (by decide))

theorem createTemp_sep {pattern : String} (rand : String) (h : '/' ∈ pattern.data) :
    createTemp pattern rand = Except.error "pattern contains path separator" := by
  simp [createTemp, h]

theorem unTar_eq (p : String) (entries : List TarEntry) :
    unTar p entries =
      Except.error ("failed to create temp file: " ++ "pattern contains path separator") := by
  rw [unTar, createTemp_sep _ (slashMemPattern p)]

theorem unTarLoop_eq (p out : String) (entries : List TarEntry) :
    unTarLoop p out entries =
      match entries.find? (fun hdr =>
          hdr.typeflag == tarTypeReg && goStartsWith (goFilepathBase hdr.name) p) with
      | some _ => Except.ok out
      | none => Except.error "file not found in archive" := by
  induction entries with
  | nil => rfl
  | cons hdr rest ih =>
    cases h1 : hdr.typeflag == tarTypeReg with
    | true =>
      cases h2 : goStartsWith (goFilepathBase hdr.name) p with
      | true => simp [unTarLoop, List.find?, bne, h1, h2]
      | false => simp [unTarLoop, List.find?, bne, h1, h2, ih]
    | false => simp [unTarLoop, List.find?, bne, h1, ih]

theorem unZipLoop_eq (p : String) (entries : List ZipEntry) :
    unZipLoop p entries =
      match entries.find? (fun f => goStartsWith (goFilepathBase f.name) p) with
      | some _ =>
        Except.error ("failed to create temp file: " ++ "pattern contains path separator")
      | none => Except.error ("no file found with prefix: " ++ p) := by
  induction entries with
  | nil => rfl
  | cons f rest ih =>
    cases h1 : goStartsWith (goFilepathBase f.name) p with
    | true => simp [unZipLoop, List.find?, h1, createTemp_sep _ (slashMemPattern p)]
    | false => simp [unZipLoop, List.find?, h1, ih]

theorem unZip_reader_err (p : String) (entries : List ZipEntry) :
    unZip p entries =
      Except.error ("failed to create zip reader: " ++ "zip: not a valid zip file") := rfl

theorem unGz_eq (p : String) (g : Bool) :
    unGz p g =
      if g then Except.error ("failed to create temp file: " ++ "pattern contains path separator")
      else Except.error "failed to create gzip reader: invalid gzip" := by
  cases g with
  | false => rfl
  | true => simp [unGz, createTemp_sep _ (slashMemPattern p)]

theorem extGo_no_dot (l l2 acc : List Char) (h : ∀ c ∈ l, c ≠ '.') :
    goFilepathExtGo (l ++ '/' :: l2) acc = "" := by
  induction l generalizing acc with
  | nil => simp [goFilepathExtGo]
  | cons c rest ih =>
    have hc : c ≠ '.' := h c (by simp)
    by_cases hs : c = '/'
    · simp [goFilepathExtGo, hs]
    · simp only [List.cons_append, goFilepathExtGo, hs, hc, if_neg]
      exact ih _ (fun d hd => h d (by simp [hd]))

theorem ext_tmp_no_dot (b r : String) (hb : ∀ c ∈ b.data, c ≠ '.') (hr : ∀ c ∈ r.data, c ≠ '.') :
    goFilepathExt ("/tmp/" ++ b ++ r) = "" := by
  rw [goFilepathExt, dataAppend, dataAppend]
  have hsh : (("/tmp/".data ++ b.data) ++ r.data).reverse
      = (r.data.reverse ++ b.data.reverse) ++ '/' :: ['p', 'm', 't', '/'] := by
    simp [List.reverse_append]
  rw [hsh]
  exact extGo_no_dot _ _ _ (by
    intro c hc
    rcases List.mem_append.mp hc with h | h
    · exact hr c (List.mem_reverse.mp h)
    · exact hb c (List.mem_reverse.mp h))

theorem tryUnArchive_noext (p arPath : String) (d : ArchiveData)
    (ho : d.openOk = true) (he : goFilepathExt arPath = "") :
    tryUnArchive p arPath d = Except.ok arPath := by
  rw [tryUnArchive, ho, he]
  rfl

theorem downloadAssetLoop_eq (osS archS exe : String) (env : DownloadEnv) (assets : List Asset) :
    downloadAssetLoop osS archS exe env assets =
      match assets.find? (matchesPlatform (osS ++ "_" ++ archS)) with
      | none => Except.error ("no asset found: os:" ++ osS ++ " arch:" ++ archS)
      | some a =>
        match downloadAssetHttp exe env with
        | Except.error e => Except.error e
        | Except.ok info =>
          Except.ok { info with platformSuffix := osS ++ "_" ++ archS,
                                arSuffix := (stripArSuffix (goToLower a.browserDownloadURL)).2 } := by
  induction assets with
  | nil => rfl
  | cons a rest ih =>
    cases h : matchesPlatform (osS ++ "_" ++ archS) a with
    | true =>
      have h2 : goHasSuffix (stripArSuffix (goToLower a.browserDownloadURL)).1
          (osS ++ "_" ++ archS) = true := h
      simp [downloadAssetLoop, List.find?, h, h2]
    | false =>
      have h2 : goHasSuffix (stripArSuffix (goToLower a.browserDownloadURL)).1
          (osS ++ "_" ++ archS) = false := h
      simp [downloadAssetLoop, List.find?, h, h2, ih]

theorem stripAgree (w : String)
    (h : ∀ s ∈ arSuffixes, goHasSuffix (stripArSuffix w).1 s = false) :
    manifestStripSeq w = (stripArSuffix w).1 := by
  cases h1 : goHasSuffix w ".tar.gz" with
  | true =>
    have hs : stripArSuffix w = (goTrimSuffix w ".tar.gz", ".tar.gz") := by
      rw [stripArSuffix, arSuffixes]
      exact stripLoop_cons_pos _ h1 (by decide)
    simp only [hs] at h
    have hA := h ".tar" (by simp [arSuffixes])
    have hB := h ".zip" (by simp [arSuffixes])
    have hC := h ".gz" (by simp [arSuffixes])
    simp only [manifestStripSeq, arSuffixes, List.foldl, hs]
    rw [goTrimSuffix_of_not hA, goTrimSuffix_of_not hB, goTrimSuffix_of_not hC]
  | false =>
    cases h2 : goHasSuffix w ".tar" with
    | true =>
      have hs : stripArSuffix w = (goTrimSuffix w ".tar", ".tar") := by
        rw [stripArSuffix, arSuffixes]
        rw [stripLoop_cons_neg _ h1]
        exact stripLoop_cons_pos _ h2 (by decide)
      simp only [hs] at h
      have hB := h ".zip" (by simp [arSuffixes])
      have hC := h ".gz" (by simp [arSuffixes])
      simp only [manifestStripSeq, arSuffixes, List.foldl, hs]
      rw [goTrimSuffix_of_not h1, goTrimSuffix_of_not hB, goTrimSuffix_of_not hC]
    | false =>
      cases h3 : goHasSuffix w ".zip" with
      | true =>
        have hs : stripArSuffix w = (goTrimSuffix w ".zip", ".zip") := by
          rw [stripArSuffix, arSuffixes]
          rw [stripLoop_cons_neg _ h1, stripLoop_cons_neg _ h2]
          exact stripLoop_cons_pos _ h3 (by decide)
        simp only [hs] at h
        have hC := h ".gz" (by simp [arSuffixes])
        simp only [manifestStripSeq, arSuffixes, List.foldl, hs]
        rw [goTrimSuffix_of_not h1, goTrimSuffix_of_not h2, goTrimSuffix_of_not hC]
      | false =>
        cases h4 : goHasSuffix w ".gz" with
        | true =>
          have hs : stripArSuffix w = (goTrimSuffix w ".gz", ".gz") := by
            rw [stripArSuffix, arSuffixes]
            rw [stripLoop_cons_neg _ h1, stripLoop_cons_neg _ h2, stripLoop_cons_neg _ h3]
            exact stripLoop_cons_pos _ h4 (by decide)
          simp only [manifestStripSeq, arSuffixes, List.foldl, hs]
          rw [goTrimSuffix_of_not h1, goTrimSuffix_of_not h2, goTrimSuffix_of_not h3]
        | false =>
          have hs : stripArSuffix w = (w, "") := by
            rw [stripArSuffix, arSuffixes]
            rw [stripLoop_cons_neg _ h1, stripLoop_cons_neg _ h2, stripLoop_cons_neg _ h3,
              stripLoop_cons_neg _ h4]
            rfl
          simp only [manifestStripSeq, arSuffixes, List.foldl, hs]
          rw [goTrimSuffix_of_not h1, goTrimSuffix_of_not h2, goTrimSuffix_of_not h3,
            goTrimSuffix_of_not h4]

theorem downloadCheckSumLoop_eq (lines : List String) (acc : List (String × String)) :
    downloadCheckSumLoop lines acc =
      if lines.any badLine then Except.error malformedMsg
      else if (checksumFold acc lines).isEmpty then Except.error emptyMsg
      else Except.ok (checksumFold acc lines) := by
  induction lines generalizing acc with
  | nil => simp [downloadCheckSumLoop, checksumFold]
  | cons line rest ih =>
    rcases hf : goFields (goTrimSpace line) with _ | ⟨p0, _ | ⟨p1, _ | ⟨p2, tl⟩⟩⟩ <;>
      simp [downloadCheckSumLoop, checksumFold, badLine, hf, ih]

theorem checksumFold_len (lines : List String) : ∀ acc : List (String × String),
    lines.any badLine = false →
    (checksumFold acc lines).length = acc.length + lines.length := by
  induction lines with
  | nil => intro acc _; simp [checksumFold]
  | cons line rest ih =>
    intro acc h
    rw [List.any_cons, Bool.or_eq_false_iff] at h
    obtain ⟨h1, h2⟩ := h
    rcases hf : goFields (goTrimSpace line) with _ | ⟨p0, _ | ⟨p1, _ | ⟨p2, tl⟩⟩⟩
    · rw [badLine, hf] at h1; simp at h1
    · rw [badLine, hf] at h1; simp at h1
    · rw [checksumFold, hf]
      rw [ih _ h2]
      simp
      omega
    · rw [badLine, hf] at h1; simp at h1

theorem nameFromPattern_no_star (pattern rand : String) (h : '*' ∉ pattern.data) :
    nameFromPattern pattern rand = pattern ++ rand := by
  have hd : pattern.data.reverse.dropWhile (fun c => c != '*') = [] := by
    rw [List.dropWhile_eq_nil_iff]
    intro x hx
    exact bne_iff_ne.mpr (fun he => h (he ▸ List.mem_reverse.mp hx))
  simp only [nameFromPattern]
  rw [hd]

theorem downloadAssetHttp_ok (exe : String) (env : DownloadEnv) (h1 : env.httpOk = true)
    (h2 : '/' ∉ exe.data) (h3 : '*' ∉ exe.data) :
    downloadAssetHttp exe env =
      Except.ok { checksum := env.digest,
                  downloadedBinaryFilePath := "/tmp/" ++ exe ++ env.rand,
                  platformSuffix := "", arSuffix := "" } := by
  simp [downloadAssetHttp, h1, createTemp, h2, nameFromPattern_no_star _ _ h3,
    String.append_assoc]

theorem upgradeFromInfo_arSuffix_irrelevant {V : Type} (osS archS exePath : String)
    (env : UpgradeEnv V) (assets : List Asset) (info : AssetInfo) (x : String) :
    upgradeFromInfo osS archS exePath env assets { info with arSuffix := x } =
      upgradeFromInfo osS archS exePath env assets info := by
  cases info
  rfl

theorem upgrade_noop {V : Type} [LinearOrder V] (env : UpgradeEnv V)
    (osS archS exePath cv : String) (curr latest : V) (rel : Release)
    (hc : env.parse cv = some curr) (hr : env.release = Except.ok rel)
    (hl : env.parse rel.tagName = some latest) (hle : latest ≤ curr) :
    Upgrade osS archS exePath env cv = (Except.ok (), noEffects, env.fs) := by
  simp only [Upgrade, hc, hr, hl]
  rw [if_pos hle]

theorem isNew_eq {V : Type} [LinearOrder V] (env : UpgradeEnv V)
    (cv : String) (curr latest : V) (rel : Release)
    (hc : env.parse cv = some curr) (hr : env.release = Except.ok rel)
    (hl : env.parse rel.tagName = some latest) :
    IsNewVersionAvailable env cv = Except.ok (decide (curr < latest)) := by
  simp only [IsNewVersionAvailable, hc, hr, hl]

theorem isNew_err1 {V : Type} [LinearOrder V] (env : UpgradeEnv V) (cv : String)
    (hc : env.parse cv = none) :
    IsNewVersionAvailable env cv = Except.error ("failed to parse current version: " ++ cv) := by
  simp only [IsNewVersionAvailable, hc]

theorem isNew_err2 {V : Type} [LinearOrder V] (env : UpgradeEnv V) (cv : String)
    (curr : V) (rel : Release) (hc : env.parse cv = some curr)
    (hr : env.release = Except.ok rel) (hl : env.parse rel.tagName = none) :
    IsNewVersionAvailable env cv =
      Except.error ("failed to parse latest version: " ++ rel.tagName) := by
  simp only [IsNewVersionAvailable, hc, hr, hl]

/-! ## Claim theorems -/

/-- C1: the spec's dispatch table requires a path ending in `.tar.gz` to be
gunzipped and then tar-extracted.  The code instead dispatches on
`filepath.Ext`, which returns only the extension after the final dot, so a
`.tar.gz` path yields `".gz"` and takes the gzip-only `unGz` branch; the
`".tar.gz"` case of the switch is unreachable.  Evaluated at the concrete
path `"app.tar.gz"`. -/
theorem C1_tarGz_path_takes_gz_branch :
    goFilepathExt "app.tar.gz" = ".gz"
    ∧ tryUnArchiveCase "app.tar.gz" = ArchiveCase.gzCase
    ∧ decide (tryUnArchiveCase "app.tar.gz" = ArchiveCase.tarGzCase) = false
    ∧ tryUnArchive "app" "app.tar.gz"
        { openOk := true, gzipOk := true, tarEntries := [], zipEntries := [] }
      = unGz "app" true :=
  ⟨rfl, rfl, rfl, rfl⟩

/-- C2: `Upgrade` never consults `Info.ArSuffix` (the post-download pipeline
is invariant under it); the downloader's temp path is
`/tmp/<executable base name><random digits>`, so when the base name contains
no dot the path has no extension, `tryUnArchive` takes the no-extension
branch and returns the downloaded file itself; a concrete run whose matched
asset URL ends in `.tar.gz` hands the downloaded file, unextracted, to the
binary replacement. -/
theorem C2_dotless_name_skips_extraction :
    (∀ (V : Type) (osS archS exePath : String) (env : UpgradeEnv V) (assets : List Asset)
        (info : AssetInfo) (x : String),
        upgradeFromInfo osS archS exePath env assets { info with arSuffix := x } =
          upgradeFromInfo osS archS exePath env assets info)
    ∧ (∀ (exe : String) (denv : DownloadEnv), denv.httpOk = true → '/' ∉ exe.data →
        '*' ∉ exe.data →
        downloadAssetHttp exe denv =
          Except.ok { checksum := denv.digest,
                      downloadedBinaryFilePath := "/tmp/" ++ exe ++ denv.rand,
                      platformSuffix := "", arSuffix := "" })
    ∧ (∀ (p b r : String) (d : ArchiveData), d.openOk = true → '.' ∉ b.data →
        '.' ∉ r.data →
        tryUnArchive p ("/tmp/" ++ b ++ r) d = Except.ok ("/tmp/" ++ b ++ r))
    ∧ (Upgrade "linux" "amd64" "/usr/local/bin/app" envC2 "v1").1 = Except.ok ()
    ∧ (Upgrade "linux" "amd64" "/usr/local/bin/app" envC2 "v1").2.1 =
        { assetDownloadAttempted := true, execReplaced := true,
          binarySource := some "/tmp/app12345" } := by
  refine ⟨?_, ?_, ?_, by decide, by decide⟩
  · intro V osS archS exePath env assets info x
    exact upgradeFromInfo_arSuffix_irrelevant osS archS exePath env assets info x
  · intro exe denv h1 h2 h3
    exact downloadAssetHttp_ok exe denv h1 h2 h3
  · intro p b r d ho hb hr2
    exact tryUnArchive_noext p _ d ho
      (ext_tmp_no_dot b r (fun c hc he => hb (he ▸ hc)) (fun c hc he => hr2 (he ▸ hc)))

/-- C2 witness: the theorem applied at the concrete executable name `"app"`
and random component `"12345"`, and at two concrete `AssetInfo`s differing
only in `arSuffix`. -/
theorem C2_dotless_name_skips_extraction_witness :
    downloadAssetHttp "app" { httpOk := true, digest := "abc123", rand := "12345" } =
      Except.ok { checksum := "abc123",
                  downloadedBinaryFilePath := "/tmp/" ++ "app" ++ "12345",
                  platformSuffix := "", arSuffix := "" }
    ∧ tryUnArchive "app" ("/tmp/" ++ "app" ++ "12345")
        { openOk := true, gzipOk := true, tarEntries := [], zipEntries := [] } =
      Except.ok ("/tmp/" ++ "app" ++ "12345")
    ∧ upgradeFromInfo "linux" "amd64" "/usr/local/bin/app" envC2 assetsC2
        { checksum := "abc123", downloadedBinaryFilePath := "/tmp/app12345",
          platformSuffix := "linux_amd64", arSuffix := ".zip" } =
      upgradeFromInfo "linux" "amd64" "/usr/local/bin/app" envC2 assetsC2
        { checksum := "abc123", downloadedBinaryFilePath := "/tmp/app12345",
          platformSuffix := "linux_amd64", arSuffix := "" } := by
  refine ⟨?_, ?_, ?_⟩
  · exact C2_dotless_name_skips_extraction.2.1 "app"
      { httpOk := true, digest := "abc123", rand := "12345" } rfl (by decide) (by decide)
  · exact C2_dotless_name_skips_extraction.2.2.1 "app" "app" "12345"
      { openOk := true, gzipOk := true, tarEntries := [], zipEntries := [] }
      rfl (by decide) (by decide)
  · exact C2_dotless_name_skips_extraction.1 Nat "linux" "amd64" "/usr/local/bin/app"
      envC2 assetsC2
      { checksum := "abc123", downloadedBinaryFilePath := "/tmp/app12345",
        platformSuffix := "linux_amd64", arSuffix := "" } ".zip"

/-- C3: for every prefix and every input, `unTar`, `unZip` and `unGz` return
an error and never succeed — every success path runs through
`os.CreateTemp "" ("/tmp/" + prefix + "-*")`, whose pattern contains a path
separator and is rejected before any archive entry is written. -/
theorem C3_extraction_helpers_never_succeed :
    (∀ (p : String) (entries : List TarEntry), exceptOk (unTar p entries) = false)
    ∧ (∀ (p : String) (entries : List ZipEntry), exceptOk (unZip p entries) = false)
    ∧ (∀ (p : String) (g : Bool), exceptOk (unGz p g) = false) := by
  refine ⟨?_, ?_, ?_⟩
  · intro p entries
    rw [unTar_eq]
    rfl
  · intro p entries
    rw [unZip_reader_err]
    rfl
  · intro p g
    rw [unGz_eq]
    cases g <;> rfl

/-- C4 counterexample: `unTar` on an archive with no matching entry fails
with the temp-file error, not a not-found error naming the prefix; `unZip`
on an archive whose first entry is a matching regular file does not extract
it but fails at `zip.NewReader` (the size is hard-coded to 0); and `unZip`
with no matching entry fails with that same reader error, not the
prefix-naming not-found error the claim requires. -/
theorem C4_extraction_selection_counterexample :
    unTar "app" [] =
      Except.error ("failed to create temp file: " ++ "pattern contains path separator")
    ∧ unZip "app" [{ name := "app-linux_amd64", isDir := false }] =
        Except.error ("failed to create zip reader: " ++ "zip: not a valid zip file")
    ∧ unZip "app" ([] : List ZipEntry) =
        Except.error ("failed to create zip reader: " ++ "zip: not a valid zip file")
    ∧ decide (unZip "app" ([] : List ZipEntry) =
        Except.error ("no file found with prefix: " ++ "app")) = false :=
  ⟨by decide, by decide, by decide, by decide⟩

/-- C4 amended: `unTar` always fails at temp-file creation before scanning;
its loop, had the temp file existed, selects the first regular entry whose
base name starts with the prefix and reports the prefix-free message
`"file not found in archive"` otherwise.  `unZip` fails even earlier: its
`zip.NewReader` call with size hard-coded to 0 rejects every archive before
any entry is read, so nothing is ever scanned or extracted; its loop, had
the reader been constructed, would select the first entry of any kind
(directories included) whose base name starts with the prefix and then fail
at temp-file creation, emitting the prefix-naming not-found error only when
no entry's base name matches. -/
theorem C4_extraction_selection_amended :
    (∀ (p : String) (entries : List TarEntry),
        unTar p entries =
          Except.error ("failed to create temp file: " ++ "pattern contains path separator"))
    ∧ (∀ (p out : String) (entries : List TarEntry),
        unTarLoop p out entries =
          match entries.find? (fun hdr =>
              hdr.typeflag == tarTypeReg && goStartsWith (goFilepathBase hdr.name) p) with
          | some _ => Except.ok out
          | none => Except.error "file not found in archive")
    ∧ (∀ (p : String) (entries : List ZipEntry),
        unZip p entries =
          Except.error ("failed to create zip reader: " ++ "zip: not a valid zip file"))
    ∧ (∀ (p : String) (entries : List ZipEntry),
        unZipLoop p entries =
          match entries.find? (fun f => goStartsWith (goFilepathBase f.name) p) with
          | some _ =>
            Except.error ("failed to create temp file: " ++ "pattern contains path separator")
          | none => Except.error ("no file found with prefix: " ++ p)) :=
  ⟨unTar_eq, unTarLoop_eq, unZip_reader_err, unZipLoop_eq⟩

/-- C5 counterexample: on `"app.zip.tar"` the asset matcher strips one
suffix (`.tar`) giving `"app.zip"`, while the manifest key derivation strips
sequentially (`.tar` then `.zip`) giving `"app"`; the two normalizations
disagree. -/
theorem C5_normalization_divergence_counterexample :
    assetNormalize "app.zip.tar" = "app.zip"
    ∧ manifestKey "app.zip.tar" = "app"
    ∧ decide (manifestKey "app.zip.tar" = assetNormalize "app.zip.tar") = false :=
  ⟨by decide, by decide, by decide⟩

/-- C5 amended: both normalizations lower-case, but the asset matcher stops
after the first stripped suffix while the manifest derivation tries all four
in sequence, so the two can differ; they agree whenever the asset-normalized
result no longer ends in any known suffix (in particular on every
single-extension name — a sufficient condition, not a characterization). -/
theorem C5_normalization_agreement_amended (u : String)
    (h : ∀ s ∈ arSuffixes, goHasSuffix (assetNormalize u) s = false) :
    manifestKey u = assetNormalize u :=
  stripAgree (goToLower u) h

/-- C5 witness: agreement at the single-extension name
`"app_linux_amd64.tar.gz"`. -/
theorem C5_normalization_agreement_amended_witness :
    manifestKey "app_linux_amd64.tar.gz" = assetNormalize "app_linux_amd64.tar.gz" :=
  C5_normalization_agreement_amended "app_linux_amd64.tar.gz" (by decide)

/-- C6: manifest parsing is all-or-nothing with two error kinds: any line
that does not split into exactly two fields fails the whole parse with the
malformed-file error and no entries are returned; otherwise, when the lines
yield no entries the distinct empty-file error is returned (which, for
well-formed lines, happens exactly for an empty body); otherwise every line
contributes one mapping from normalized key to lower-cased checksum. -/
theorem C6_manifest_parse_all_or_nothing (lines : List String) :
    (downloadCheckSum lines =
      if lines.any badLine then Except.error malformedMsg
      else if (checksumFold [] lines).isEmpty then Except.error emptyMsg
      else Except.ok (checksumFold [] lines))
    ∧ (lines.any badLine = false → (checksumFold [] lines).isEmpty = lines.isEmpty) := by
  constructor
  · exact downloadCheckSumLoop_eq lines []
  · intro h
    have h1 : (checksumFold [] lines).length = lines.length := by
      simpa using checksumFold_len lines [] h
    cases hc : checksumFold [] lines <;> cases hl2 : lines <;> simp_all

/-- C6 witness: the emptiness equivalence applied to the concrete
well-formed one-line manifest body. -/
theorem C6_manifest_parse_all_or_nothing_witness :
    (checksumFold [] ["abc123  app_linux_amd64.tar.gz"]).isEmpty =
      (["abc123  app_linux_amd64.tar.gz"] : List String).isEmpty :=
  (C6_manifest_parse_all_or_nothing ["abc123  app_linux_amd64.tar.gz"]).2 (by decide)

/-- C7: when both versions parse and the latest is not greater than the
current, `Upgrade` returns success with no asset download attempted and the
filesystem untouched; `IsNewVersionAvailable` returns exactly the strict
comparison, and an error when either version string fails to parse. -/
theorem C7_noop_upgrade_and_version_query {V : Type} [LinearOrder V] (env : UpgradeEnv V)
    (osS archS exePath cv : String) :
    (∀ (curr latest : V) (rel : Release),
        env.parse cv = some curr → env.release = Except.ok rel →
        env.parse rel.tagName = some latest →
        (latest ≤ curr → Upgrade osS archS exePath env cv = (Except.ok (), noEffects, env.fs))
        ∧ IsNewVersionAvailable env cv = Except.ok (decide (curr < latest)))
    ∧ (env.parse cv = none →
        IsNewVersionAvailable env cv = Except.error ("failed to parse current version: " ++ cv))
    ∧ (∀ (curr : V) (rel : Release), env.parse cv = some curr →
        env.release = Except.ok rel → env.parse rel.tagName = none →
        IsNewVersionAvailable env cv =
          Except.error ("failed to parse latest version: " ++ rel.tagName)) := by
  refine ⟨?_, isNew_err1 env cv, ?_⟩
  · intro curr latest rel hc hr hl
    exact ⟨fun hle => upgrade_noop env osS archS exePath cv curr latest rel hc hr hl hle,
           isNew_eq env cv curr latest rel hc hr hl⟩
  · intro curr rel hc hr hl
    exact isNew_err2 env cv curr rel hc hr hl

/-- C7 witness: the theorem applied in a concrete environment where the
latest tag equals the current version, and at an unparseable version
string. -/
theorem C7_noop_upgrade_and_version_query_witness :
    Upgrade "linux" "amd64" "/usr/local/bin/app" envC7 "v1" = (Except.ok (), noEffects, envC7.fs)
    ∧ IsNewVersionAvailable envC7 "v1" = Except.ok false
    ∧ IsNewVersionAvailable envC7 "zzz" =
        Except.error ("failed to parse current version: " ++ "zzz") := by
  refine ⟨?_, ?_, ?_⟩
  · exact ((C7_noop_upgrade_and_version_query envC7 "linux" "amd64" "/usr/local/bin/app"
      "v1").1 1 1 relC7 rfl rfl rfl).1 (le_refl 1)
  · exact ((C7_noop_upgrade_and_version_query envC7 "linux" "amd64" "/usr/local/bin/app"
      "v1").1 1 1 relC7 rfl rfl rfl).2
  · exact (C7_noop_upgrade_and_version_query envC7 "linux" "amd64" "/usr/local/bin/app"
      "zzz").2.1 rfl

/-- C8: `replaceBinary` is a single rename: on a failed rename the wrapped
error is returned and the filesystem — in particular the target binary — is
exactly the original one (no partial replacement); on success the target
atomically receives the temp file's content and nothing else changes. -/
theorem C8_replace_binary_rename_only (fs : FS) (src dst : String) :
    replaceBinary false fs src dst = (Except.error "failed to replace binary: rename failed", fs)
    ∧ (replaceBinary false fs src dst).2 dst = fs dst
    ∧ (replaceBinary true fs src dst).1 = Except.ok ()
    ∧ (∀ q : String, (replaceBinary true fs src dst).2 q =
        if q = dst then fs src else if q = src then none else fs q) :=
  ⟨rfl, rfl, rfl, fun _ => rfl⟩

/-- C9: `DownloadAsset` returns the first asset whose lower-cased URL, with
at most one archive suffix stripped, ends with `<os>_<arch>`, together with
the platform suffix and detected archive suffix, and fails naming OS and
architecture when none matches; `.tar.gz` is tried before `.tar`, so a URL
ending in `.tar.gz` always reports `.tar.gz`; the reported suffix is empty
exactly when nothing was stripped. -/
theorem C9_asset_matcher_first_match (osS archS exe : String) (env : DownloadEnv)
    (assets : List Asset) :
    (DownloadAsset osS archS exe env assets =
      match assets.find? (matchesPlatform (osS ++ "_" ++ archS)) with
      | none => Except.error ("no asset found: os:" ++ osS ++ " arch:" ++ archS)
      | some a =>
        match downloadAssetHttp exe env with
        | Except.error e => Except.error e
        | Except.ok info =>
          Except.ok { info with platformSuffix := osS ++ "_" ++ archS,
                                arSuffix := (stripArSuffix (goToLower a.browserDownloadURL)).2 })
    ∧ (∀ u : String, goHasSuffix u ".tar.gz" = true → (stripArSuffix u).2 = ".tar.gz")
    ∧ (∀ u : String, (∀ s ∈ arSuffixes, goHasSuffix u s = false) → stripArSuffix u = (u, "")) := by
  refine ⟨downloadAssetLoop_eq osS archS exe env assets, ?_, ?_⟩
  · intro u hu
    rw [stripArSuffix, arSuffixes, stripLoop_cons_pos _ hu (by decide)]
  · intro u h
    rw [stripArSuffix, arSuffixes, stripLoop_cons_neg _ (h ".tar.gz" (by simp [arSuffixes])),
      stripLoop_cons_neg _ (h ".tar" (by simp [arSuffixes])),
      stripLoop_cons_neg _ (h ".zip" (by simp [arSuffixes])),
      stripLoop_cons_neg _ (h ".gz" (by simp [arSuffixes]))]
    rfl

/-- C9 witness: the suffix-priority and the no-suffix conjuncts applied at
concrete URLs. -/
theorem C9_asset_matcher_first_match_witness :
    (stripArSuffix "app_linux_amd64.tar.gz").2 = ".tar.gz"
    ∧ stripArSuffix "app_linux_amd64" = ("app_linux_amd64", "") := by
  constructor
  · exact (C9_asset_matcher_first_match "linux" "amd64" "app"
      { httpOk := true, digest := "d", rand := "1" } []).2.1 "app_linux_amd64.tar.gz" (by decide)
  · exact (C9_asset_matcher_first_match "linux" "amd64" "app"
      { httpOk := true, digest := "d", rand := "1" } []).2.2 "app_linux_amd64" (by decide)

/-- C10 counterexample: with the stored checksum `"abc"` and the digest
`"ABC"` — equal case-insensitively — the validator returns `false`: the
comparison is exact, not case-insensitive. -/
theorem C10_checksum_gate_counterexample :
    IsCheckSumValid "app" [("app_linux_amd64", "abc")] "linux" "amd64" "ABC" = false
    ∧ goToLower "abc" = goToLower "ABC" :=
  ⟨by decide, by decide⟩

/-- C10 amended: the validator builds the key `<binary>_<os>_<arch>`,
returns `false` when it is absent, and otherwise returns `true` exactly
when the stored checksum is byte-for-byte equal to the digest (the pipeline
only feeds it lower-cased stored values and lowercase hex digests, for
which exact equality coincides with case-insensitive equality). -/
theorem C10_checksum_gate_amended (binary osS archS digest : String)
    (m : List (String × String)) :
    IsCheckSumValid binary m osS archS digest = true ↔
      checksumLookup m (binary ++ "_" ++ osS ++ "_" ++ archS) = some digest := by
  simp only [IsCheckSumValid]
  cases hl : checksumLookup m (binary ++ "_" ++ osS ++ "_" ++ archS) with
  | none => simp
  | some expected => simp [beq_iff_eq]

/-- C10 witness: the amended equivalence applied at a concrete manifest and
digest. -/
theorem C10_checksum_gate_amended_witness :
    IsCheckSumValid "app" [("app_linux_amd64", "abc")] "linux" "amd64" "abc" = true :=
  (C10_checksum_gate_amended "app" "linux" "amd64" "abc" [("app_linux_amd64", "abc")]).mpr
    (by decide)
